import Mathlib

/-!
Verification of the Alma time-travel variable framework (`src/alma/alma.py`)
against its natural-language specification.

Modelling conventions:
* Python values of the stored type are modelled by a type parameter `V`; Lean
  equality on `V` models Python value equality (`==`).
* `copy.deepcopy` at type `V` is modelled by a function field `deepcopyFn`
  stored at construction (in Python it is the ambient library function); the
  assumption that a deep copy is value-equal to its original is written
  `∀ x, deepcopyFn x = x` where a theorem needs value equality.  The
  `try/except` fallback in `_snapshot` concerns uncopyable values, which the
  claims do not exercise; `deepcopyFn` is total.  Reference identity and
  aliasing are modelled separately by an explicit store (`Store`, `AlmaVarH`).
* `datetime` timestamps are modelled as rationals (seconds); each mutating
  operation takes the clock reading `now` as an argument.
* A Python method that can raise is an `Except AlmaError` result; a method
  raising before any mutation leaves the object unchanged, which the `…Post`
  helpers make explicit (the source never mutates before raising).
* Error classes follow the spec's taxonomy: `frozenError` and `rollbackError`
  are the code's `FrozenError`/`RollbackError`; `validationError` is the
  validator-raised exception that `set` propagates; `duplicateNameError` and
  `notFoundError` are the `AlmaError`s raised by the registry.
* Listeners are an abstract type `L` together with an interpretation `act`
  turning a listener, the variable and the new record into an effect on an
  external world `W` that may fail; `fireListeners` is the dispatch loop with
  its `try/except: pass`.
-/

/-- Error taxonomy for all failing operations. -/
inductive AlmaError where
  | frozenError (msg : String)
  | rollbackError (msg : String)
  | validationError (msg : String)
  | duplicateNameError (msg : String)
  | notFoundError (msg : String)
deriving DecidableEq, Repr

/-- `ChangeRecord`: an immutable snapshot of a single value change. -/
structure ChangeRecord (V : Type) where
  index : Nat
  value : V
  timestamp : ℚ
  label : Option String
deriving DecidableEq, Repr

/-- A validator is called on a candidate value and either accepts (`none`)
or raises with a message (`some msg`). -/
def Validator (V : Type) : Type := V → Option String

/-- `AlmaVar`: a watched variable recording its full mutation history.
Fields mirror the attributes set in `AlmaVar.__init__`; `deepcopyFn` models
the ambient `copy.deepcopy` at type `V` (see the header comment).  The lock
is concurrency-only and has no sequential content. -/
structure AlmaVar (V L : Type) where
  _name : String
  _deep_copy : Bool
  deepcopyFn : V → V
  _validators : List (Validator V)
  _listeners : List L
  _frozen : Bool
  _history : List (ChangeRecord V)

namespace AlmaVar

variable {V L W : Type}

/-- `AlmaVar._snapshot`: deep-copy the value when the policy is enabled,
else store it as-is. -/
def _snapshot (a : AlmaVar V L) (value : V) : V :=
  if a._deep_copy then a.deepcopyFn value else value

/-- `AlmaVar.__init__`: record the initial value without going through
`set`, so no validators run and no listeners fire. -/
def mkVar (name : String) (initial_value : V) (deep_copy : Bool) (dcopy : V → V)
    (validators : List (Validator V)) (on_change : List L) (now : ℚ) :
    AlmaVar V L :=
  let pre : AlmaVar V L :=
    { _name := name, _deep_copy := deep_copy, deepcopyFn := dcopy,
      _validators := validators, _listeners := on_change,
      _frozen := false, _history := [] }
  { pre with
    _history := [{ index := 0, value := pre._snapshot initial_value,
                   timestamp := now, label := some "initial" }] }

/-- `AlmaVar.get`: value of the most recent history entry
(`self._history[-1].value`; `none` would be Python's `IndexError` on an
empty history, which the invariants rule out). -/
def get (a : AlmaVar V L) : Option V :=
  a._history.getLast?.map (·.value)

/-- The `for validate in self._validators: validate(value)` loop: run the
validators in registration order and propagate the first failure. -/
def runValidators (vs : List (Validator V)) (value : V) : Option String :=
  match vs with
  | [] => none
  | f :: rest =>
    match f value with
    | some msg => some msg
    | none => runValidators rest value

/-- The locked part of `AlmaVar.set`: frozen check, validator loop, then
append one record; returns the mutated variable and the new record (which
the source then hands to the listeners). -/
def setCore (a : AlmaVar V L) (value : V) (label : Option String) (now : ℚ) :
    Except AlmaError (AlmaVar V L × ChangeRecord V) :=
  if a._frozen then
    .error (.frozenError ("Variable '" ++ a._name ++ "' is frozen and cannot be mutated."))
  else
    match runValidators a._validators value with
    | some msg => .error (.validationError msg)
    | none =>
      let record : ChangeRecord V :=
        { index := a._history.length, value := a._snapshot value,
          timestamp := now, label := label }
      .ok ({ a with _history := a._history ++ [record] }, record)

/-- `AlmaVar.set` without listener dispatch (the state change only). -/
def set (a : AlmaVar V L) (value : V) (label : Option String) (now : ℚ) :
    Except AlmaError (AlmaVar V L) :=
  (a.setCore value label now).map (·.1)

/-- Python objects survive a raising method call unchanged: the state after
`set`, whether it returned or raised. -/
def setPost (a : AlmaVar V L) (value : V) (label : Option String) (now : ℚ) :
    AlmaVar V L :=
  match a.set value label now with
  | .ok a2 => a2
  | .error _ => a

/-- `AlmaVar.history`: a shallow copy of the history list (`list(self._history)`);
value-equal to the internal list. -/
def history (a : AlmaVar V L) : List (ChangeRecord V) :=
  a._history

/-- `AlmaVar.last_change`: the most recent record (`self._history[-1]`). -/
def last_change (a : AlmaVar V L) : Option (ChangeRecord V) :=
  a._history.getLast?

/-- `AlmaVar.rollback`: frozen check, range check, then a full `set` of the
re-snapshotted target value with the label defaulting (via Python `or`, so
also for an empty string) to `"rollback to index {index}"`. -/
def rollback (a : AlmaVar V L) (index : Int) (label : Option String) (now : ℚ) :
    Except AlmaError (AlmaVar V L) :=
  if a._frozen then
    .error (.frozenError ("Variable '" ++ a._name ++ "' is frozen and cannot be rolled back."))
  else if h : index < 0 ∨ (a._history.length : Int) ≤ index then
    .error (.rollbackError ("Rollback index " ++ toString index ++
      " is out of range [0, " ++ toString ((a._history.length : Int) - 1) ++
      "] for variable '" ++ a._name ++ "'."))
  else
    have hi : index.toNat < a._history.length := by
      rcases not_or.mp h with ⟨h1, h2⟩
      omega
    let target_value := (a._history.get ⟨index.toNat, hi⟩).value
    let rollback_label :=
      match label with
      | some s => if s.isEmpty then "rollback to index " ++ toString index else s
      | none => "rollback to index " ++ toString index
    a.set (a._snapshot target_value) (some rollback_label) now

/-- State after `rollback`, whether it returned or raised. -/
def rollbackPost (a : AlmaVar V L) (index : Int) (label : Option String) (now : ℚ) :
    AlmaVar V L :=
  match a.rollback index label now with
  | .ok a2 => a2
  | .error _ => a

/-- `AlmaVar.reset`: shorthand for `rollback(0, label="reset to initial")`. -/
def reset (a : AlmaVar V L) (now : ℚ) : Except AlmaError (AlmaVar V L) :=
  a.rollback 0 (some "reset to initial") now

/-- `AlmaVar.freeze`. -/
def freeze (a : AlmaVar V L) : AlmaVar V L := { a with _frozen := true }

/-- `AlmaVar.thaw`. -/
def thaw (a : AlmaVar V L) : AlmaVar V L := { a with _frozen := false }

/-- `AlmaVar.is_frozen`. -/
def is_frozen (a : AlmaVar V L) : Bool := a._frozen

/-- `AlmaVar.add_validator`. -/
def add_validator (a : AlmaVar V L) (f : Validator V) : AlmaVar V L :=
  { a with _validators := a._validators ++ [f] }

/-- `AlmaVar.add_listener`. -/
def add_listener (a : AlmaVar V L) (l : L) : AlmaVar V L :=
  { a with _listeners := a._listeners ++ [l] }

/-- The listener dispatch loop after a successful `set`: each listener is
called with the variable and the new record; a raising listener is caught
and discarded (`except Exception: pass`) and the loop continues.  `act`
interprets an abstract listener as a fallible effect on a world `W`. -/
def fireListeners (act : L → AlmaVar V L → ChangeRecord V → W → Except String W)
    (ls : List L) (a : AlmaVar V L) (record : ChangeRecord V) (w : W) : W :=
  match ls with
  | [] => w
  | l :: rest =>
    fireListeners act rest a record
      (match act l a record w with
       | .ok w2 => w2
       | .error _ => w)

/-- Full `AlmaVar.set`: the locked mutation followed by listener dispatch
outside the lock. -/
def setNotify (act : L → AlmaVar V L → ChangeRecord V → W → Except String W)
    (a : AlmaVar V L) (value : V) (label : Option String) (now : ℚ) (w : W) :
    Except AlmaError (AlmaVar V L × W) :=
  match a.setCore value label now with
  | .error e => .error e
  | .ok (a2, record) => .ok (a2, fireListeners act a2._listeners a2 record w)

/-- Variable state and world after the full `set`, whether it returned or
raised. -/
def setNotifyPost (act : L → AlmaVar V L → ChangeRecord V → W → Except String W)
    (a : AlmaVar V L) (value : V) (label : Option String) (now : ℚ) (w : W) :
    AlmaVar V L × W :=
  match a.setNotify act value label now w with
  | .ok p => p
  | .error _ => (a, w)

end AlmaVar

/-- Does this result raise the spec's `FrozenError`? -/
def raisesFrozen {α : Type} : Except AlmaError α → Bool
  | .error (.frozenError _) => true
  | _ => false

/-- Does this result raise the spec's `RollbackError`? -/
def raisesRollback {α : Type} : Except AlmaError α → Bool
  | .error (.rollbackError _) => true
  | _ => false

/-- Does this result propagate a validator failure (the spec's
`ValidationError`)? -/
def raisesValidation {α : Type} : Except AlmaError α → Bool
  | .error (.validationError _) => true
  | _ => false

/-- Does this result raise the spec's `DuplicateNameError`? -/
def raisesDuplicate {α : Type} : Except AlmaError α → Bool
  | .error (.duplicateNameError _) => true
  | _ => false

/-- Did the call return normally? -/
def isOkB {ε α : Type} : Except ε α → Bool
  | .ok _ => true
  | .error _ => false

/-!  Diff (`AlmaVar.diff`). -/

/-- Round half to even, the tie behaviour of Python's `round`. -/
def roundHalfEven (q : ℚ) : ℤ :=
  if q - ⌊q⌋ < 1/2 then ⌊q⌋
  else if 1/2 < q - ⌊q⌋ then ⌊q⌋ + 1
  else if ⌊q⌋ % 2 = 0 then ⌊q⌋ else ⌊q⌋ + 1

/-- Python `round(x, 3)`: round to 3 decimal places (exact rationals stand in
for the source's floats; no claim exercises float representation error). -/
def round3 (x : ℚ) : ℚ := (roundHalfEven (x * 1000) : ℚ) / 1000

/-- One entry of `AlmaVar.diff`: the dict with keys `from_index`, `to_index`,
`from_value`, `to_value`, `elapsed_ms`. -/
structure DiffEntry (V : Type) where
  from_index : Nat
  to_index : Nat
  from_value : V
  to_value : V
  elapsed_ms : ℚ
deriving DecidableEq, Repr

/-- The body of one iteration of the `diff` loop:
`elapsed = (curr.timestamp - prev.timestamp).total_seconds() * 1000`,
then `round(elapsed, 3)`. -/
def mkDiffEntry {V : Type} (prev curr : ChangeRecord V) : DiffEntry V :=
  { from_index := prev.index, to_index := curr.index,
    from_value := prev.value, to_value := curr.value,
    elapsed_ms := round3 ((curr.timestamp - prev.timestamp) * 1000) }

/-- The `for i in range(1, len(records))` loop of `AlmaVar.diff`: one entry
per adjacent pair of records, in order. -/
def diffPairs {V : Type} : List (ChangeRecord V) → List (DiffEntry V)
  | [] => []
  | [_] => []
  | r1 :: r2 :: rest => mkDiffEntry r1 r2 :: diffPairs (r2 :: rest)

/-- `AlmaVar.diff`. -/
def AlmaVar.diff {V L : Type} (a : AlmaVar V L) : List (DiffEntry V) :=
  diffPairs a.history

/-!  Registry (`AlmaRegistry`). -/

/-- Python `dict` lookup on an insertion-ordered association list. -/
def lookupName {α : Type} : List (String × α) → String → Option α
  | [], _ => none
  | p :: rest, k => if p.1 = k then some p.2 else lookupName rest k

/-- Python `name in self._vars`. -/
def containsName {α : Type} (m : List (String × α)) (k : String) : Bool :=
  (lookupName m k).isSome

/-- Python `self._vars[name] = var`: replace in place when the key exists,
else append. -/
def dictInsert {α : Type} : List (String × α) → String → α → List (String × α)
  | [], k, v => [(k, v)]
  | p :: rest, k, v => if p.1 = k then (k, v) :: rest else p :: dictInsert rest k v

/-- `AlmaRegistry`: a name-to-variable mapping (the lock has no sequential
content). -/
structure AlmaRegistry (V L : Type) where
  _vars : List (String × AlmaVar V L)

namespace AlmaRegistry

variable {V L : Type}

/-- `AlmaRegistry.watch`: duplicate check, then construct a fresh `AlmaVar`
and store it under `name`.  `dcopy` models the ambient `copy.deepcopy`
handed to the new variable; `now` is the clock reading for its initial
record.  The source raises a plain `AlmaError` here, which the spec's
taxonomy names `DuplicateNameError`. -/
def watch (r : AlmaRegistry V L) (name : String) (initial_value : V)
    (deep_copy : Bool) (dcopy : V → V) (validators : List (Validator V))
    (on_change : List L) (overwrite : Bool) (now : ℚ) :
    Except AlmaError (AlmaRegistry V L × AlmaVar V L) :=
  if containsName r._vars name && !overwrite then
    .error (.duplicateNameError ("Variable '" ++ name ++
      "' is already registered. Use overwrite=True to replace it."))
  else
    let var := AlmaVar.mkVar name initial_value deep_copy dcopy validators on_change now
    .ok ({ _vars := dictInsert r._vars name var }, var)

/-- Registry state after `watch`, whether it returned or raised. -/
def watchPost (r : AlmaRegistry V L) (name : String) (initial_value : V)
    (deep_copy : Bool) (dcopy : V → V) (validators : List (Validator V))
    (on_change : List L) (overwrite : Bool) (now : ℚ) : AlmaRegistry V L :=
  match r.watch name initial_value deep_copy dcopy validators on_change overwrite now with
  | .ok p => p.1
  | .error _ => r

/-- `AlmaRegistry.get_var`: lookup, raising the spec's `NotFoundError`
(a plain `AlmaError` in the source) when the name is absent. -/
def get_var (r : AlmaRegistry V L) (name : String) :
    Except AlmaError (AlmaVar V L) :=
  match lookupName r._vars name with
  | some v => .ok v
  | none => .error (.notFoundError ("No variable named '" ++ name ++ "' is registered."))

end AlmaRegistry

/-!  Operation sequences, for the history invariants. -/

/-- One external call on a variable (mutators carry their clock reading). -/
inductive AlmaOp (V L : Type) where
  | setOp (value : V) (label : Option String) (now : ℚ)
  | rollbackOp (index : Int) (label : Option String) (now : ℚ)
  | resetOp (now : ℚ)
  | freezeOp
  | thawOp
  | addValidatorOp (f : Validator V)
  | addListenerOp (l : L)

/-- Apply one call, Python-style: a raising call leaves the variable
unchanged.  The boolean records whether this was a successful `set` or
`rollback`. -/
def applyOp {V L : Type} (a : AlmaVar V L) : AlmaOp V L → AlmaVar V L × Bool
  | .setOp v lbl t =>
    match a.set v lbl t with
    | .ok a2 => (a2, true)
    | .error _ => (a, false)
  | .rollbackOp i lbl t =>
    match a.rollback i lbl t with
    | .ok a2 => (a2, true)
    | .error _ => (a, false)
  | .resetOp t =>
    match a.reset t with
    | .ok a2 => (a2, true)
    | .error _ => (a, false)
  | .freezeOp => (a.freeze, false)
  | .thawOp => (a.thaw, false)
  | .addValidatorOp f => (a.add_validator f, false)
  | .addListenerOp l => (a.add_listener l, false)

/-- Run a sequence of calls, returning the final state and the number of
successful `set`/`rollback` calls. -/
def runOps {V L : Type} (a : AlmaVar V L) : List (AlmaOp V L) → AlmaVar V L × Nat
  | [] => (a, 0)
  | op :: ops =>
    let step := applyOp a op
    let done := runOps step.1 ops
    (done.1, (if step.2 then 1 else 0) + done.2)

/-!  Reference/aliasing model, for the copy-isolation claim.  Python objects
live in a store addressed by `Nat`; a Python variable holds an address.
`copy.deepcopy` allocates a fresh object with an equal payload (payloads are
taken flat, so a deep copy copies the whole payload, faithful for the
single-object mutation the claim performs). -/

/-- An object store. -/
structure Store (P : Type) where
  data : List P
deriving DecidableEq, Repr

namespace Store

variable {P : Type}

/-- Dereference an address. -/
def read (s : Store P) (r : Nat) : Option P := s.data[r]?

/-- Mutate the object at an address in place. -/
def write (s : Store P) (r : Nat) (p : P) : Store P := ⟨s.data.set r p⟩

/-- Allocate a fresh object. -/
def alloc (s : Store P) (p : P) : Store P × Nat := (⟨s.data ++ [p]⟩, s.data.length)

end Store

/-- `AlmaVar._snapshot` in the store model: with `deep_copy`, allocate a
fresh copy of the referenced object (a dangling reference keeps the original
reference, the source's `try/except` fallback); without it, keep the
reference. -/
def snapshotH {P : Type} (dc : Bool) (s : Store P) (r : Nat) : Store P × Nat :=
  if dc then
    match s.read r with
    | some p => s.alloc p
    | none => (s, r)
  else (s, r)

/-- `AlmaVar` in the store model: history entries hold addresses.  The
validator/listener machinery is covered by the pure model; this model keeps
the fields the snapshot path of `__init__`/`set` touches. -/
structure AlmaVarH (P : Type) where
  _name : String
  _deep_copy : Bool
  _frozen : Bool
  _history : List (ChangeRecord Nat)
deriving DecidableEq, Repr

namespace AlmaVarH

variable {P : Type}

/-- `AlmaVar.__init__` in the store model. -/
def mkH (name : String) (dc : Bool) (s : Store P) (r : Nat) (now : ℚ) :
    AlmaVarH P × Store P :=
  let snap := snapshotH dc s r
  ({ _name := name, _deep_copy := dc, _frozen := false,
     _history := [{ index := 0, value := snap.2, timestamp := now,
                    label := some "initial" }] }, snap.1)

/-- `AlmaVar.set` in the store model (success path appends the snapshot
reference). -/
def setH (a : AlmaVarH P) (s : Store P) (r : Nat) (label : Option String)
    (now : ℚ) : Except AlmaError (AlmaVarH P × Store P) :=
  if a._frozen then
    .error (.frozenError ("Variable '" ++ a._name ++ "' is frozen and cannot be mutated."))
  else
    let snap := snapshotH a._deep_copy s r
    .ok ({ a with
           _history := a._history ++
             [{ index := a._history.length, value := snap.2,
                timestamp := now, label := label }] }, snap.1)

/-- The address `get` returns. -/
def getAddr (a : AlmaVarH P) : Option Nat :=
  a._history.getLast?.map (·.value)

/-- What a caller of `get` observes: the payload of the object the current
record references. -/
def observeGet (a : AlmaVarH P) (s : Store P) : Option P :=
  (a.getAddr).bind s.read

end AlmaVarH

/-!  Shared lemmas about the core operations. -/

namespace AlmaVar

variable {V L W : Type}

/-- The record `set` appends when it succeeds. -/
def newRecord (a : AlmaVar V L) (value : V) (label : Option String) (now : ℚ) :
    ChangeRecord V :=
  { index := a._history.length, value := a._snapshot value,
    timestamp := now, label := label }

theorem setCore_of_pass (a : AlmaVar V L) (value : V) (label : Option String)
    (now : ℚ) (hf : a._frozen = false)
    (hv : runValidators a._validators value = none) :
    a.setCore value label now =
      .ok ({ a with _history := a._history ++ [a.newRecord value label now] },
           a.newRecord value label now) := by
  simp [setCore, hf, hv, newRecord]

theorem set_of_pass (a : AlmaVar V L) (value : V) (label : Option String)
    (now : ℚ) (hf : a._frozen = false)
    (hv : runValidators a._validators value = none) :
    a.set value label now =
      .ok { a with _history := a._history ++ [a.newRecord value label now] } := by
  simp [set, setCore_of_pass a value label now hf hv, Except.map]

theorem set_ok_inv {a a2 : AlmaVar V L} {value : V} {label : Option String}
    {now : ℚ} (h : a.set value label now = .ok a2) :
    a._frozen = false ∧ runValidators a._validators value = none ∧
    a2._history = a._history ++ [a.newRecord value label now] := by
  unfold set setCore at h
  cases hf : a._frozen
  · simp [hf] at h
    cases hv : runValidators a._validators value
    · simp [hv, Except.map] at h
      exact ⟨rfl, rfl, by simp [← h, newRecord]⟩
    · simp [hv, Except.map] at h
  · simp [hf, Except.map] at h

theorem get_append (a : AlmaVar V L) (l : List (ChangeRecord V))
    (r : ChangeRecord V) :
    (({ a with _history := l ++ [r] } : AlmaVar V L)).get = some r.value := by
  simp [get]

end AlmaVar

namespace AlmaVar

variable {V L W : Type}

/-- When every deep copy is value-equal to its original, `_snapshot` is
value-preserving under either policy. -/
theorem snapshot_faithful (a : AlmaVar V L) (hcopy : ∀ x, a.deepcopyFn x = x)
    (v : V) : a._snapshot v = v := by
  unfold _snapshot
  cases a._deep_copy <;> simp [hcopy]

theorem runValidators_append (pre post : List (Validator V)) (f : Validator V)
    (value : V) (msg : String) (hpre : ∀ g ∈ pre, g value = none)
    (hf : f value = some msg) :
    runValidators (pre ++ f :: post) value = some msg := by
  induction pre with
  | nil => simp [runValidators, hf]
  | cons g rest ih =>
    have hg : g value = none := hpre g (by simp)
    simp only [List.cons_append, runValidators, hg]
    exact ih fun g' hg' => hpre g' (by simp [hg'])

theorem rollback_ok_inv {a a2 : AlmaVar V L} {index : Int} {lbl : Option String}
    {now : ℚ} (h : a.rollback index lbl now = .ok a2) :
    a._frozen = false ∧ 0 ≤ index ∧ index < (a._history.length : Int) ∧
    ∃ value label2, a2._history = a._history ++ [a.newRecord value label2 now] := by
  unfold rollback at h
  cases hf : a._frozen
  · simp only [hf, Bool.false_eq_true, if_false] at h
    split at h
    · exact absurd h (by simp)
    · rename_i hc
      rcases set_ok_inv h with ⟨-, -, hist⟩
      push_neg at hc
      exact ⟨rfl, hc.1, by omega, _, _, hist⟩
  · simp [hf] at h

end AlmaVar

theorem lookupName_dictInsert {α : Type} (m : List (String × α)) (k : String)
    (v : α) : lookupName (dictInsert m k v) k = some v := by
  induction m with
  | nil => simp [dictInsert, lookupName]
  | cons p rest ih =>
    by_cases hp : p.1 = k
    · simp [dictInsert, hp, lookupName]
    · simp [dictInsert, hp, lookupName, ih]

theorem getLast?_of_ne_nil {α : Type} (l : List α) (h : l ≠ []) :
    ∃ x, l.getLast? = some x :=
  ⟨l.getLast h, List.getLast?_eq_getLast l h⟩

theorem diffPairs_length {V : Type} (l : List (ChangeRecord V)) :
    (diffPairs l).length = l.length - 1 := by
  induction l with
  | nil => simp [diffPairs]
  | cons x xs ih =>
    cases xs with
    | nil => simp [diffPairs]
    | cons y ys => simp [diffPairs, ih]

theorem diffPairs_zip {V : Type} (l : List (ChangeRecord V)) :
    diffPairs l = (l.zip l.tail).map (fun p => mkDiffEntry p.1 p.2) := by
  induction l with
  | nil => simp [diffPairs]
  | cons x xs ih =>
    cases xs with
    | nil => simp [diffPairs]
    | cons y ys => simp [diffPairs, ih]

theorem roundHalfEven_nonneg (q : ℚ) (h : 0 ≤ q) : 0 ≤ roundHalfEven q := by
  unfold roundHalfEven
  have hf : (0:ℤ) ≤ ⌊q⌋ := Int.floor_nonneg.mpr h
  split_ifs <;> omega

theorem round3_nonneg (x : ℚ) (h : 0 ≤ x) : 0 ≤ round3 x := by
  unfold round3
  have h1 : (0:ℤ) ≤ roundHalfEven (x * 1000) :=
    roundHalfEven_nonneg _ (by positivity)
  have h2 : (0:ℚ) ≤ (roundHalfEven (x * 1000) : ℚ) := by exact_mod_cast h1
  positivity

theorem chain'_zip_tail {α : Type} {P : α → α → Prop} (l : List α)
    (hc : l.Chain' P) : ∀ p ∈ l.zip l.tail, P p.1 p.2 := by
  induction l with
  | nil => simp
  | cons x xs ih =>
    cases xs with
    | nil => simp
    | cons y ys =>
      rw [List.chain'_cons] at hc
      intro p hp
      simp only [List.tail_cons, List.zip_cons_cons, List.mem_cons] at hp
      rcases hp with h1 | h2
      · subst h1; exact hc.1
      · exact ih hc.2 p (by simpa using h2)

namespace AlmaVar

variable {V L : Type}

theorem mkVar_history (name : String) (init : V) (dc : Bool) (dcopy : V → V)
    (vals : List (Validator V)) (ls : List L) (now : ℚ) :
    (mkVar name init dc dcopy vals ls now : AlmaVar V L)._history =
      [{ index := 0, value := if dc then dcopy init else init,
         timestamp := now, label := some "initial" }] := rfl

theorem mkVar_get (name : String) (init : V) (dc : Bool) (dcopy : V → V)
    (vals : List (Validator V)) (ls : List L) (now : ℚ)
    (hcopy : ∀ x, dcopy x = x) :
    (mkVar name init dc dcopy vals ls now : AlmaVar V L).get = some init := by
  simp [get, mkVar_history]
  cases dc <;> simp [hcopy]

end AlmaVar

/-!  History invariant machinery. -/

/-- The spec's history invariant: non-empty, first label `"initial"`, each
entry's `index` equal to its position. -/
def goodHistory {V : Type} (l : List (ChangeRecord V)) : Prop :=
  1 ≤ l.length ∧ l.head?.map (·.label) = some (some "initial") ∧
  l.map (·.index) = List.range l.length

theorem goodHistory_append {V : Type} (l : List (ChangeRecord V))
    (r : ChangeRecord V) (h : goodHistory l) (hr : r.index = l.length) :
    goodHistory (l ++ [r]) := by
  obtain ⟨h1, h2, h3⟩ := h
  refine ⟨by simp, ?_, ?_⟩
  · cases l with
    | nil => simp at h1
    | cons x xs => simpa using h2
  · simp [h3, hr, List.range_succ]

theorem applyOp_good {V L : Type} (a : AlmaVar V L) (op : AlmaOp V L)
    (h : goodHistory a._history) :
    goodHistory (applyOp a op).1._history ∧
    (applyOp a op).1._history.length =
      a._history.length + (if (applyOp a op).2 then 1 else 0) := by
  cases op with
  | setOp v lbl t =>
    cases hs : a.set v lbl t with
    | ok a2 =>
      rcases AlmaVar.set_ok_inv hs with ⟨-, -, hist⟩
      constructor
      · simp only [applyOp, hs]
        rw [hist]; exact goodHistory_append _ _ h rfl
      · simp only [applyOp, hs]
        simp [hist, AlmaVar.newRecord]
    | error e =>
      constructor
      · simp only [applyOp, hs]
        exact h
      · simp [applyOp, hs]
  | rollbackOp i lbl t =>
    cases hs : a.rollback i lbl t with
    | ok a2 =>
      rcases AlmaVar.rollback_ok_inv hs with ⟨-, -, -, value, label2, hist⟩
      constructor
      · simp only [applyOp, hs]
        rw [hist]; exact goodHistory_append _ _ h rfl
      · simp only [applyOp, hs]
        simp [hist, AlmaVar.newRecord]
    | error e =>
      constructor
      · simp only [applyOp, hs]
        exact h
      · simp [applyOp, hs]
  | resetOp t =>
    cases hs : a.reset t with
    | ok a2 =>
      rcases AlmaVar.rollback_ok_inv hs with ⟨-, -, -, value, label2, hist⟩
      constructor
      · simp only [applyOp, hs]
        rw [hist]; exact goodHistory_append _ _ h rfl
      · simp only [applyOp, hs]
        simp [hist, AlmaVar.newRecord]
    | error e =>
      constructor
      · simp only [applyOp, hs]
        exact h
      · simp [applyOp, hs]
  | freezeOp => exact ⟨h, by simp [applyOp, AlmaVar.freeze]⟩
  | thawOp => exact ⟨h, by simp [applyOp, AlmaVar.thaw]⟩
  | addValidatorOp f => exact ⟨h, by simp [applyOp, AlmaVar.add_validator]⟩
  | addListenerOp l => exact ⟨h, by simp [applyOp, AlmaVar.add_listener]⟩

theorem runOps_good {V L : Type} (ops : List (AlmaOp V L)) :
    ∀ a : AlmaVar V L, goodHistory a._history →
    goodHistory (runOps a ops).1._history ∧
    (runOps a ops).1._history.length = a._history.length + (runOps a ops).2 := by
  induction ops with
  | nil => intro a h; exact ⟨h, by simp [runOps]⟩
  | cons op rest ih =>
    intro a h
    obtain ⟨hg, hl⟩ := applyOp_good a op h
    obtain ⟨hg2, hl2⟩ := ih (applyOp a op).1 hg
    refine ⟨by simpa [runOps] using hg2, ?_⟩
    simp only [runOps]
    cases hstep : (applyOp a op).2 <;> simp [hstep] at hl ⊢ <;> omega

/-!  Claim theorems. -/

/-- C1: for every variable with at least one registered validator, `set`
runs the validators in registration order, stops at the first failure, and
propagates that validator's message as a `ValidationError`; on such a
failure no record is appended, no listener fires (the external world is
untouched), and `get` still returns the prior value. -/
theorem C1_set_validation_failure {V L W : Type}
    (act : L → AlmaVar V L → ChangeRecord V → W → Except String W)
    (a : AlmaVar V L) (value : V) (label : Option String) (now : ℚ) (w : W)
    (pre post : List (Validator V)) (f : Validator V) (msg : String)
    (hvs : a._validators = pre ++ f :: post)
    (hpre : ∀ g ∈ pre, g value = none)
    (hf : f value = some msg)
    (hfrozen : a._frozen = false) :
    a.setNotify act value label now w = .error (.validationError msg) ∧
    a.setNotifyPost act value label now w = (a, w) ∧
    (a.setNotifyPost act value label now w).1.get = a.get ∧
    (a.setNotifyPost act value label now w).1._history = a._history := by
  have hrun : AlmaVar.runValidators a._validators value = some msg := by
    rw [hvs]; exact AlmaVar.runValidators_append pre post f value msg hpre hf
  have h1 : a.setNotify act value label now w = .error (.validationError msg) := by
    simp [AlmaVar.setNotify, AlmaVar.setCore, hfrozen, hrun]
  have h2 : a.setNotifyPost act value label now w = (a, w) := by
    simp [AlmaVar.setNotifyPost, h1]
  exact ⟨h1, h2, by rw [h2], by rw [h2]⟩

/-- Validator used by the C1 witness: rejects values of 5 and above. -/
def C1f : Validator Nat := fun v => if 5 ≤ v then some "too big" else none

/-- Listener interpretation used by the C1 witness: log the new index. -/
def C1act : Unit → AlmaVar Nat Unit → ChangeRecord Nat → List Nat → Except String (List Nat) :=
  fun _ _ r w => .ok (r.index :: w)

/-- Variable used by the C1 witness. -/
def C1varW : AlmaVar Nat Unit := AlmaVar.mkVar "x" 0 true id [C1f] [()] 0

theorem C1_set_validation_failure_witness :
    (C1varW._validators = [] ++ C1f :: []) ∧
    (∀ g ∈ ([] : List (Validator Nat)), g 7 = none) ∧
    C1f 7 = some "too big" ∧
    C1varW._frozen = false ∧
    (C1varW.setNotify C1act 7 none 1 [] = .error (.validationError "too big") ∧
     C1varW.setNotifyPost C1act 7 none 1 [] = (C1varW, []) ∧
     (C1varW.setNotifyPost C1act 7 none 1 []).1.get = C1varW.get ∧
     (C1varW.setNotifyPost C1act 7 none 1 []).1._history = C1varW._history) :=
  ⟨rfl, by simp, rfl, rfl,
   C1_set_validation_failure C1act C1varW 7 none 1 [] [] [] C1f "too big"
     rfl (by simp) rfl rfl⟩

/-- C3: starting from construction, after any sequence of operations the
history is non-empty, its first record is labelled `"initial"`, its length
is 1 plus the number of successful `set`/`rollback` calls, and every
record's `index` equals its position. -/
theorem C3_history_invariants {V L : Type} (name : String) (init : V)
    (dc : Bool) (dcopy : V → V) (vals : List (Validator V)) (ls : List L)
    (now : ℚ) (ops : List (AlmaOp V L)) :
    1 ≤ (runOps (AlmaVar.mkVar name init dc dcopy vals ls now) ops).1.history.length ∧
    ((runOps (AlmaVar.mkVar name init dc dcopy vals ls now) ops).1.history.head?.map
      (·.label)) = some (some "initial") ∧
    (runOps (AlmaVar.mkVar name init dc dcopy vals ls now) ops).1.history.length =
      1 + (runOps (AlmaVar.mkVar name init dc dcopy vals ls now) ops).2 ∧
    (runOps (AlmaVar.mkVar name init dc dcopy vals ls now) ops).1.history.map
      (·.index) =
      List.range (runOps (AlmaVar.mkVar name init dc dcopy vals ls now) ops).1.history.length := by
  have hg : goodHistory (AlmaVar.mkVar name init dc dcopy vals ls now : AlmaVar V L)._history := by
    rw [AlmaVar.mkVar_history]
    exact ⟨by simp, by simp, by simp [List.range_succ]⟩
  obtain ⟨⟨g1, g2, g3⟩, hlen⟩ :=
    runOps_good ops (AlmaVar.mkVar name init dc dcopy vals ls now) hg
  have hone : (AlmaVar.mkVar name init dc dcopy vals ls now : AlmaVar V L)._history.length = 1 := by
    rw [AlmaVar.mkVar_history]; rfl
  refine ⟨?_, ?_, ?_, ?_⟩ <;> simp only [AlmaVar.history]
  · exact g1
  · exact g2
  · omega
  · exact g3

/-- C6: on a frozen variable, `set` and `rollback` fail with `FrozenError`
and leave the state unchanged, while `get`, `history`, `last_change`,
`diff` and `is_frozen` remain available and succeed. -/
theorem C6_frozen_blocks_mutation {V L : Type} (a : AlmaVar V L) (v : V)
    (lbl lbl2 : Option String) (t t2 : ℚ) (i : Int)
    (hf : a._frozen = true) (hne : a._history ≠ []) :
    raisesFrozen (a.set v lbl t) = true ∧
    raisesFrozen (a.rollback i lbl2 t2) = true ∧
    a.setPost v lbl t = a ∧
    a.rollbackPost i lbl2 t2 = a ∧
    (∃ x, a.get = some x) ∧
    (∃ r, a.last_change = some r) ∧
    a.history = a._history ∧
    a.diff.length = a._history.length - 1 ∧
    a.is_frozen = true := by
  have hset : a.set v lbl t =
      .error (.frozenError ("Variable '" ++ a._name ++ "' is frozen and cannot be mutated.")) := by
    simp [AlmaVar.set, AlmaVar.setCore, hf, Except.map]
  have hrb : a.rollback i lbl2 t2 =
      .error (.frozenError ("Variable '" ++ a._name ++ "' is frozen and cannot be rolled back.")) := by
    simp [AlmaVar.rollback, hf]
  obtain ⟨x, hx⟩ := getLast?_of_ne_nil _ hne
  refine ⟨by simp [hset, raisesFrozen], by simp [hrb, raisesFrozen],
    by simp [AlmaVar.setPost, hset], by simp [AlmaVar.rollbackPost, hrb],
    ⟨x.value, by simp [AlmaVar.get, hx]⟩, ⟨x, by simp [AlmaVar.last_change, hx]⟩,
    rfl, by simp [AlmaVar.diff, AlmaVar.history, diffPairs_length],
    by simp [AlmaVar.is_frozen, hf]⟩

/-- Frozen variable used by the C6 witness. -/
def C6varW : AlmaVar Nat Unit :=
  (AlmaVar.mkVar "c" 1 true id [] [] 0).freeze

theorem C6_frozen_blocks_mutation_witness :
    C6varW._frozen = true ∧ C6varW._history ≠ [] ∧
    (raisesFrozen (C6varW.set 5 none 1) = true ∧
     raisesFrozen (C6varW.rollback 0 none 1) = true ∧
     C6varW.setPost 5 none 1 = C6varW ∧
     C6varW.rollbackPost 0 none 1 = C6varW ∧
     (∃ x, C6varW.get = some x) ∧
     (∃ r, C6varW.last_change = some r) ∧
     C6varW.history = C6varW._history ∧
     C6varW.diff.length = C6varW._history.length - 1 ∧
     C6varW.is_frozen = true) :=
  ⟨rfl, by decide,
   C6_frozen_blocks_mutation C6varW 5 none none 1 1 0 rfl (by decide)⟩

/-- C10: on a frozen variable, `rollback` fails with `FrozenError` for every
index, in range or not — the frozen check precedes the range check, so
`RollbackError` is never raised while frozen. -/
theorem C10_frozen_check_precedes_range_check {V L : Type} (a : AlmaVar V L)
    (i : Int) (lbl : Option String) (t : ℚ) (hf : a._frozen = true) :
    raisesFrozen (a.rollback i lbl t) = true ∧
    raisesRollback (a.rollback i lbl t) = false := by
  simp [AlmaVar.rollback, hf, raisesFrozen, raisesRollback]

/-- Frozen variable used by the C10 witness (history length 1, so index 99
is far out of range). -/
def C10varW : AlmaVar Nat Unit :=
  (AlmaVar.mkVar "f" 0 true id [] [] 0).freeze

theorem C10_frozen_check_precedes_range_check_witness :
    C10varW._frozen = true ∧
    (raisesFrozen (C10varW.rollback 99 none 1) = true ∧
     raisesRollback (C10varW.rollback 99 none 1) = false) :=
  ⟨rfl, C10_frozen_check_precedes_range_check C10varW 99 none 1 rfl⟩

/-- C2: `watch` on an already-registered name with `overwrite` false fails
with `DuplicateNameError` and leaves the registry untouched; with
`overwrite` true it succeeds, stores a freshly constructed variable (one
initial record), and `get_var` then yields that variable, whose `get`
returns the new initial value. -/
theorem C2_watch_duplicate_and_overwrite {V L : Type} (r : AlmaRegistry V L)
    (name : String) (init : V) (dc : Bool) (dcopy : V → V)
    (vals : List (Validator V)) (ls : List L) (now : ℚ)
    (hdup : containsName r._vars name = true)
    (hcopy : ∀ x, dcopy x = x) :
    raisesDuplicate (r.watch name init dc dcopy vals ls false now) = true ∧
    r.watchPost name init dc dcopy vals ls false now = r ∧
    r.watch name init dc dcopy vals ls true now =
      .ok ({ _vars := dictInsert r._vars name
               (AlmaVar.mkVar name init dc dcopy vals ls now) },
           AlmaVar.mkVar name init dc dcopy vals ls now) ∧
    (AlmaRegistry.get_var
       { _vars := dictInsert r._vars name
           (AlmaVar.mkVar name init dc dcopy vals ls now) } name) =
      .ok (AlmaVar.mkVar name init dc dcopy vals ls now) ∧
    (AlmaVar.mkVar name init dc dcopy vals ls now : AlmaVar V L)._history.length = 1 ∧
    (AlmaVar.mkVar name init dc dcopy vals ls now : AlmaVar V L).get = some init := by
  have h1 : r.watch name init dc dcopy vals ls false now =
      .error (.duplicateNameError ("Variable '" ++ name ++
        "' is already registered. Use overwrite=True to replace it.")) := by
    simp [AlmaRegistry.watch, hdup]
  refine ⟨by simp [h1, raisesDuplicate], by simp [AlmaRegistry.watchPost, h1],
    by simp [AlmaRegistry.watch], ?_, ?_, ?_⟩
  · simp [AlmaRegistry.get_var, lookupName_dictInsert]
  · rw [AlmaVar.mkVar_history]; rfl
  · exact AlmaVar.mkVar_get name init dc dcopy vals ls now hcopy

/-- Registry used by the C2 witness, with `"x"` already registered at 0. -/
def C2regW : AlmaRegistry Nat Unit :=
  { _vars := [("x", AlmaVar.mkVar "x" 0 true id [] [] 0)] }

theorem C2_watch_duplicate_and_overwrite_witness :
    containsName C2regW._vars "x" = true ∧
    (∀ x : Nat, id x = x) ∧
    (raisesDuplicate (C2regW.watch "x" 1 true id [] [] false 2) = true ∧
     C2regW.watchPost "x" 1 true id [] [] false 2 = C2regW ∧
     C2regW.watch "x" 1 true id [] [] true 2 =
       .ok ({ _vars := dictInsert C2regW._vars "x"
                (AlmaVar.mkVar "x" 1 true id [] [] 2) },
            AlmaVar.mkVar "x" 1 true id [] [] 2) ∧
     (AlmaRegistry.get_var
        { _vars := dictInsert C2regW._vars "x"
            (AlmaVar.mkVar "x" 1 true id [] [] 2) } "x") =
       .ok (AlmaVar.mkVar "x" 1 true id [] [] 2) ∧
     (AlmaVar.mkVar "x" 1 true id [] [] 2 : AlmaVar Nat Unit)._history.length = 1 ∧
     (AlmaVar.mkVar "x" 1 true id [] [] 2 : AlmaVar Nat Unit).get = some 1) :=
  ⟨rfl, fun _ => rfl,
   C2_watch_duplicate_and_overwrite C2regW "x" 1 true id [] [] 2 rfl (fun _ => rfl)⟩

/-- C4: a successful `rollback(i)` with no label appends exactly one record
(the prior history survives as an unchanged prefix), the new record is
labelled `"rollback to index {i}"`, and `get` then returns the value stored
at history index `i`. -/
theorem C4_rollback_roundtrip {V L : Type} (a a2 : AlmaVar V L) (i : Int)
    (now : ℚ)
    (hcopy : ∀ x, a.deepcopyFn x = x)
    (h0 : 0 ≤ i) (hn : i < (a._history.length : Int))
    (h : a.rollback i none now = .ok a2) :
    a2._history.length = a._history.length + 1 ∧
    a2._history.take a._history.length = a._history ∧
    (a2._history.getLast?.map (·.label)) =
      some (some ("rollback to index " ++ toString i)) ∧
    a2.get = (a._history[i.toNat]?).map (·.value) := by
  have hfrozen : a._frozen = false := (AlmaVar.rollback_ok_inv h).1
  have hc : ¬(i < 0 ∨ (a._history.length : Int) ≤ i) := by omega
  have hi : i.toNat < a._history.length := by omega
  rw [AlmaVar.rollback, if_neg (by simp [hfrozen]), dif_neg hc] at h
  rcases AlmaVar.set_ok_inv h with ⟨-, -, hist⟩
  refine ⟨by simp [hist], by simp [hist, List.take_left], ?_, ?_⟩
  · rw [hist]
    simp [List.getLast?_concat, AlmaVar.newRecord]
  · rw [AlmaVar.get, hist, List.getLast?_concat]
    rw [List.getElem?_eq_getElem hi]
    simp [AlmaVar.newRecord, AlmaVar.snapshot_faithful a hcopy, List.get_eq_getElem]

/-- Variable used by the C4 witness: initial 0 at t=0, then set to 5. -/
def C4varW : AlmaVar Nat Unit :=
  (AlmaVar.mkVar "s" 0 true id [] [] 0).setPost 5 none 1

/-- Result of rolling `C4varW` back to index 0. -/
def C4resW : AlmaVar Nat Unit := C4varW.rollbackPost 0 none 2

theorem C4_rollback_roundtrip_witness :
    (∀ x : Nat, C4varW.deepcopyFn x = x) ∧
    0 ≤ (0 : Int) ∧ (0 : Int) < (C4varW._history.length : Int) ∧
    C4varW.rollback 0 none 2 = .ok C4resW ∧
    (C4resW._history.length = C4varW._history.length + 1 ∧
     C4resW._history.take C4varW._history.length = C4varW._history ∧
     (C4resW._history.getLast?.map (·.label)) =
       some (some ("rollback to index " ++ toString (0 : Int))) ∧
     C4resW.get = (C4varW._history[(0 : Int).toNat]?).map (·.value)) :=
  ⟨fun _ => rfl, by decide, by decide, rfl,
   C4_rollback_roundtrip C4varW C4resW 0 2 (fun _ => rfl) (by decide) (by decide) rfl⟩

/-- C5 (amended): on an unfrozen variable with history length `n`,
`rollback(-1)` and `rollback(n)` fail with `RollbackError` and leave the
state unchanged; `rollback(n-1)` succeeds and is a value-wise no-op for
`get`, provided the registered validators accept the current value —
rollback performs a full `set`, so a rejecting validator makes it fail
with the validator's error instead (see the counterexample). -/
theorem C5_rollback_boundary {V L : Type} (a : AlmaVar V L) (v : V)
    (lbl : Option String) (now : ℚ)
    (hf : a._frozen = false)
    (hg : a.get = some v)
    (hval : AlmaVar.runValidators a._validators (a._snapshot v) = none)
    (hcopy : ∀ x, a.deepcopyFn x = x) :
    raisesRollback (a.rollback (-1) lbl now) = true ∧
    raisesRollback (a.rollback (a._history.length : Int) lbl now) = true ∧
    a.rollbackPost (-1) lbl now = a ∧
    a.rollbackPost (a._history.length : Int) lbl now = a ∧
    ∃ a2, a.rollback ((a._history.length : Int) - 1) none now = .ok a2 ∧
      a2.get = some v := by
  have hne : a._history ≠ [] := by
    intro hnil
    simp [AlmaVar.get, hnil] at hg
  have hlen : 1 ≤ a._history.length := List.length_pos.mpr hne
  have hc1 : ((-1 : Int) < 0 ∨ (a._history.length : Int) ≤ -1) :=
    Or.inl (by norm_num)
  have hc2 : ((a._history.length : Int) < 0 ∨
      (a._history.length : Int) ≤ (a._history.length : Int)) := Or.inr le_rfl
  have e1 : ∃ m, a.rollback (-1) lbl now = .error (.rollbackError m) := by
    rw [AlmaVar.rollback.eq_def, if_neg (by simp [hf]), dif_pos hc1]
    exact ⟨_, rfl⟩
  have e2 : ∃ m, a.rollback (a._history.length : Int) lbl now =
      .error (.rollbackError m) := by
    rw [AlmaVar.rollback.eq_def, if_neg (by simp [hf]), dif_pos hc2]
    exact ⟨_, rfl⟩
  obtain ⟨m1, e1⟩ := e1
  obtain ⟨m2, e2⟩ := e2
  have hc3 : ¬(((a._history.length : Int) - 1) < 0 ∨
      (a._history.length : Int) ≤ (a._history.length : Int) - 1) := by omega
  have hi : ((a._history.length : Int) - 1).toNat < a._history.length := by omega
  have hlastv : (a._history.getLast hne).value = v := by
    rw [AlmaVar.get, List.getLast?_eq_getLast a._history hne] at hg
    simpa using hg
  have hidx : ((a._history.length : Int) - 1).toNat = a._history.length - 1 := by
    omega
  have htarget : ∀ prf : ((a._history.length : Int) - 1).toNat < a._history.length,
      (a._history.get ⟨((a._history.length : Int) - 1).toNat, prf⟩).value = v := by
    intro prf
    have hgl : a._history.get ⟨((a._history.length : Int) - 1).toNat, prf⟩ =
        a._history.getLast hne := by
      rw [List.getLast_eq_getElem, List.get_eq_getElem]
      simp only [hidx]
    rw [hgl, hlastv]
  have hrb : a.rollback ((a._history.length : Int) - 1) none now =
      a.set (a._snapshot v)
        (some ("rollback to index " ++ toString ((a._history.length : Int) - 1)))
        now := by
    rw [AlmaVar.rollback.eq_def, if_neg (by simp [hf]), dif_neg hc3]
    dsimp only
    rw [htarget]
  refine ⟨by simp [e1, raisesRollback], by simp [e2, raisesRollback],
    by simp [AlmaVar.rollbackPost, e1], by simp [AlmaVar.rollbackPost, e2], ?_⟩
  rw [hrb, AlmaVar.set_of_pass a _ _ now hf hval]
  refine ⟨_, rfl, ?_⟩
  rw [AlmaVar.get_append]
  simp [AlmaVar.newRecord, AlmaVar.snapshot_faithful a hcopy]

/-- Variable used by the C5 witness: 3 then 7, no validators, unfrozen. -/
def C5varW : AlmaVar Nat Unit :=
  (AlmaVar.mkVar "b" 3 true id [] [] 0).setPost 7 none 1

theorem C5_rollback_boundary_witness :
    C5varW._frozen = false ∧
    C5varW.get = some 7 ∧
    AlmaVar.runValidators C5varW._validators (C5varW._snapshot 7) = none ∧
    (∀ x : Nat, C5varW.deepcopyFn x = x) ∧
    (raisesRollback (C5varW.rollback (-1) none 2) = true ∧
     raisesRollback (C5varW.rollback (C5varW._history.length : Int) none 2) = true ∧
     C5varW.rollbackPost (-1) none 2 = C5varW ∧
     C5varW.rollbackPost (C5varW._history.length : Int) none 2 = C5varW ∧
     ∃ a2, C5varW.rollback ((C5varW._history.length : Int) - 1) none 2 = .ok a2 ∧
       a2.get = some 7) :=
  ⟨rfl, rfl, rfl, fun _ => rfl,
   C5_rollback_boundary C5varW 7 none 2 rfl rfl rfl (fun _ => rfl)⟩

/-- Validator used by the C5 counterexample: rejects every value. -/
def C5reject : Validator Nat := fun _ => some "rejected"

/-- Counterexample variable: unfrozen, history length 1, but carrying a
validator that rejects everything. -/
def C5varC : AlmaVar Nat Unit := AlmaVar.mkVar "x" 0 true id [C5reject] [] 0

/-- C5 counterexample: the claim says `rollback(n-1)` succeeds on every
unfrozen variable; on `C5varC` (n = 1) `rollback(0)` raises the validator's
failure instead — rollback performs a full `set`, which re-runs
validators. -/
theorem C5_rollback_boundary_counterexample :
    C5varC._frozen = false ∧
    C5varC._history.length = 1 ∧
    isOkB (C5varC.rollback ((C5varC._history.length : Int) - 1) none 1) = false ∧
    raisesValidation (C5varC.rollback ((C5varC._history.length : Int) - 1) none 1) = true :=
  ⟨rfl, rfl, rfl, rfl⟩

/-- C7: if `set` succeeds, listener dispatch never propagates a listener's
failure to the caller (the call returns `ok`), the new record stays
appended so `get` yields the new value, and a failing listener is caught
and discarded while every subsequent listener is still dispatched exactly
as it would have been from the unchanged world. -/
theorem C7_listener_failure_isolated {V L W : Type}
    (act : L → AlmaVar V L → ChangeRecord V → W → Except String W)
    (a : AlmaVar V L) (value : V) (label : Option String) (now : ℚ) (w : W)
    (hf : a._frozen = false)
    (hv : AlmaVar.runValidators a._validators value = none) :
    (a.setNotify act value label now w =
      .ok ({ a with _history := a._history ++ [a.newRecord value label now] },
           AlmaVar.fireListeners act a._listeners
             { a with _history := a._history ++ [a.newRecord value label now] }
             (a.newRecord value label now) w)) ∧
    ({ a with _history := a._history ++ [a.newRecord value label now] } : AlmaVar V L).get
      = some (a._snapshot value) ∧
    (∀ (l : L) (rest : List L) (b : AlmaVar V L) (r : ChangeRecord V) (w0 : W)
       (e : String), act l b r w0 = .error e →
       AlmaVar.fireListeners act (l :: rest) b r w0 =
         AlmaVar.fireListeners act rest b r w0) := by
  refine ⟨?_, ?_, ?_⟩
  · rw [AlmaVar.setNotify, AlmaVar.setCore_of_pass a value label now hf hv]
  · exact AlmaVar.get_append a _ _
  · intro l rest b r w0 e he
    rw [AlmaVar.fireListeners, he]

/-- Listener interpretation used by the C7 witness: listener `true` raises,
listener `false` logs the new record's index. -/
def C7act : Bool → AlmaVar Nat Bool → ChangeRecord Nat → List Nat → Except String (List Nat) :=
  fun bad _ r w => if bad then .error "boom" else .ok (r.index :: w)

/-- Variable used by the C7 witness: a raising listener registered before a
logging one. -/
def C7varW : AlmaVar Nat Bool := AlmaVar.mkVar "x" 0 true id [] [true, false] 0

theorem C7_listener_failure_isolated_witness :
    C7varW._frozen = false ∧
    AlmaVar.runValidators C7varW._validators 1 = none ∧
    ((C7varW.setNotify C7act 1 none 1 [] =
      .ok ({ C7varW with _history := C7varW._history ++ [C7varW.newRecord 1 none 1] },
           AlmaVar.fireListeners C7act C7varW._listeners
             { C7varW with _history := C7varW._history ++ [C7varW.newRecord 1 none 1] }
             (C7varW.newRecord 1 none 1) [])) ∧
     ({ C7varW with _history := C7varW._history ++ [C7varW.newRecord 1 none 1] } : AlmaVar Nat Bool).get
       = some (C7varW._snapshot 1) ∧
     (∀ (l : Bool) (rest : List Bool) (b : AlmaVar Nat Bool) (r : ChangeRecord Nat)
        (w0 : List Nat) (e : String), C7act l b r w0 = .error e →
        AlmaVar.fireListeners C7act (l :: rest) b r w0 =
          AlmaVar.fireListeners C7act rest b r w0)) :=
  ⟨rfl, rfl, C7_listener_failure_isolated C7act C7varW 1 none 1 [] rfl rfl⟩

/-- C8: `diff` returns one entry per adjacent pair of history records, in
order (so exactly `n - 1` entries), each built from the two records'
indices and values with `elapsed_ms` the timestamp delta in milliseconds
rounded to 3 decimal places — non-negative whenever the history's
timestamps are non-decreasing. -/
theorem C8_diff_adjacent_pairs {V L : Type} (a : AlmaVar V L)
    (hmono : a._history.Chain' (fun r1 r2 => r1.timestamp ≤ r2.timestamp)) :
    a.diff.length = a.history.length - 1 ∧
    a.diff = (a.history.zip a.history.tail).map (fun p => mkDiffEntry p.1 p.2) ∧
    (∀ e ∈ a.diff, 0 ≤ e.elapsed_ms) := by
  refine ⟨by simp [AlmaVar.diff, diffPairs_length],
    by simp [AlmaVar.diff, diffPairs_zip], ?_⟩
  intro e he
  rw [AlmaVar.diff, diffPairs_zip] at he
  obtain ⟨p, hp, hpe⟩ := List.mem_map.mp he
  have hts : p.1.timestamp ≤ p.2.timestamp := chain'_zip_tail _ hmono p hp
  subst hpe
  simp only [mkDiffEntry]
  exact round3_nonneg _ (mul_nonneg (sub_nonneg.mpr hts) (by norm_num))

/-- Variable used by the C8 witness: records at t = 0, 1, 5. -/
def C8varW : AlmaVar Nat Unit :=
  ((AlmaVar.mkVar "t" 0 true id [] [] 0).setPost 1 none 1).setPost 2 none 5

theorem C8_diff_adjacent_pairs_witness :
    C8varW._history.Chain' (fun r1 r2 => r1.timestamp ≤ r2.timestamp) ∧
    (C8varW.diff.length = C8varW.history.length - 1 ∧
     C8varW.diff = (C8varW.history.zip C8varW.history.tail).map
       (fun p => mkDiffEntry p.1 p.2) ∧
     (∀ e ∈ C8varW.diff, 0 ≤ e.elapsed_ms)) := by
  have hchain : C8varW._history.Chain' (fun r1 r2 => r1.timestamp ≤ r2.timestamp) := by
    rw [show C8varW._history =
      [{ index := 0, value := 0, timestamp := 0, label := some "initial" },
       { index := 1, value := 1, timestamp := 1, label := none },
       { index := 2, value := 2, timestamp := 5, label := none }] from rfl]
    refine List.chain'_cons.mpr ⟨by decide, List.chain'_cons.mpr ⟨by decide, ?_⟩⟩
    exact List.chain'_singleton _
  exact ⟨hchain, C8_diff_adjacent_pairs C8varW hchain⟩

/-- C9: with copy-on-store enabled, mutating the object passed to `set` (or
the initial value) afterwards does not change what `get` observes; with it
disabled, the same mutation is observable through `get`. -/
theorem C9_copy_isolation {P : Type} (s : Store P) (r : Nat) (p : P)
    (name : String) (lbl : Option String) (now now2 : ℚ)
    (a a2 : AlmaVarH P) (s2 : Store P)
    (hr : r < s.data.length) :
    (a._deep_copy = true → a.setH s r lbl now2 = .ok (a2, s2) →
      a2.observeGet (s2.write r p) = a2.observeGet s2) ∧
    ((AlmaVarH.mkH name true s r now).1.observeGet
        (((AlmaVarH.mkH name true s r now).2).write r p) =
      (AlmaVarH.mkH name true s r now).1.observeGet
        (AlmaVarH.mkH name true s r now).2) ∧
    (a._deep_copy = false → a.setH s r lbl now2 = .ok (a2, s2) →
      a2.observeGet (s2.write r p) = some p) := by
  have hpl : s.read r = some (s.data.get ⟨r, hr⟩) := by
    simp [Store.read, List.getElem?_eq_getElem hr, List.get_eq_getElem]
  have hne : r ≠ s.data.length := by omega
  refine ⟨?_, ?_, ?_⟩
  · intro hdc hset
    cases hfz : a._frozen
    · rw [AlmaVarH.setH, if_neg (by simp [hfz])] at hset
      simp only [hdc, snapshotH, if_pos, hpl, Store.alloc, Except.ok.injEq,
        Prod.mk.injEq] at hset
      obtain ⟨ha2, hs2⟩ := hset
      subst ha2
      subst hs2
      simp [AlmaVarH.observeGet, AlmaVarH.getAddr, List.getLast?_concat,
        Store.write, Store.read, List.getElem?_set_ne hne]
    · rw [AlmaVarH.setH, if_pos (by simp [hfz])] at hset
      exact absurd hset (by simp)
  · simp only [AlmaVarH.mkH, snapshotH, if_pos, hpl, Store.alloc]
    simp [AlmaVarH.observeGet, AlmaVarH.getAddr, Store.write, Store.read,
      List.getElem?_set_ne hne]
  · intro hdc hset
    cases hfz : a._frozen
    · rw [AlmaVarH.setH, if_neg (by simp [hfz])] at hset
      simp only [hdc, snapshotH, Bool.false_eq_true, if_false, Except.ok.injEq,
        Prod.mk.injEq] at hset
      obtain ⟨ha2, hs2⟩ := hset
      subst ha2
      subst hs2
      simp [AlmaVarH.observeGet, AlmaVarH.getAddr, List.getLast?_concat,
        Store.write, Store.read, List.getElem?_set_self hr]
    · rw [AlmaVarH.setH, if_pos (by simp [hfz])] at hset
      exact absurd hset (by simp)

/-- Store used by the C9 witness: two objects, payloads 10 and 20. -/
def C9storeW : Store Nat := { data := [10, 20] }

/-- Copy-on-store variable used by the C9 witness. -/
def C9varDeep : AlmaVarH Nat :=
  { _name := "d", _deep_copy := true, _frozen := false,
    _history := [{ index := 0, value := 1, timestamp := 0, label := some "initial" }] }

/-- Reference-storing variable used by the C9 witness. -/
def C9varShallow : AlmaVarH Nat :=
  { _name := "r", _deep_copy := false, _frozen := false,
    _history := [{ index := 0, value := 1, timestamp := 0, label := some "initial" }] }

/-- Result of the copy-on-store `set` in the C9 witness. -/
def C9deepRes : AlmaVarH Nat × Store Nat :=
  match C9varDeep.setH C9storeW 0 none 1 with
  | .ok pr => pr
  | .error _ => (C9varDeep, C9storeW)

/-- Result of the reference-storing `set` in the C9 witness. -/
def C9shallowRes : AlmaVarH Nat × Store Nat :=
  match C9varShallow.setH C9storeW 0 none 1 with
  | .ok pr => pr
  | .error _ => (C9varShallow, C9storeW)

theorem C9_copy_isolation_witness :
    0 < C9storeW.data.length ∧
    C9deepRes.1.observeGet (C9deepRes.2.write 0 99) =
      C9deepRes.1.observeGet C9deepRes.2 ∧
    ((AlmaVarH.mkH "n" true C9storeW 0 0).1.observeGet
        (((AlmaVarH.mkH "n" true C9storeW 0 0).2).write 0 99) =
      (AlmaVarH.mkH "n" true C9storeW 0 0).1.observeGet
        (AlmaVarH.mkH "n" true C9storeW 0 0).2) ∧
    C9shallowRes.1.observeGet (C9shallowRes.2.write 0 99) = some 99 := by
  have h1 := C9_copy_isolation C9storeW 0 99 "n" none 0 1 C9varDeep
    C9deepRes.1 C9deepRes.2 (by decide)
  have h2 := C9_copy_isolation C9storeW 0 99 "n" none 0 1 C9varShallow
    C9shallowRes.1 C9shallowRes.2 (by decide)
  exact ⟨by decide, h1.1 rfl rfl, h1.2.1, h2.2.2 rfl rfl⟩
